import Mathlib

/-!
Verification development for the ros3d-evolve repository (a ROS 3D
visualization library).  The JavaScript sources are shallowly embedded
over the rational numbers: every JS `number` becomes a `ℚ`, and the two
irrational library primitives the code calls (`Math.sqrt` inside
`THREE.Quaternion.normalize`, `Math.cos`/`Math.sin` in the LaserScan
decoder) are abstracted as explicit function parameters `sqrtF`, `cosF`,
`sinF` so that every definition stays computable and theorems can either
quantify over them (when the property does not depend on their values) or
constrain them pointwise (for example `sqrtF 1 = 1`, which real square
root satisfies).

THREE.js is an external collaborator of the repository; its vector and
quaternion operations (`Vector3.applyQuaternion`, `Vector3.add`,
`Quaternion.premultiply`, `Quaternion.multiply`, `Quaternion.normalize`)
are embedded here with the formulas of the THREE.js sources.
-/

namespace Ros3D

/-- A 3D vector, mirroring `THREE.Vector3` / the wire objects with x, y, z. -/
structure Vec3 where
  x : ℚ
  y : ℚ
  z : ℚ
deriving DecidableEq, Repr

/-- A quaternion, mirroring `THREE.Quaternion` / the wire objects with x, y, z, w. -/
structure Quat where
  x : ℚ
  y : ℚ
  z : ℚ
  w : ℚ
deriving DecidableEq, Repr

/-- Vector addition (`THREE.Vector3.add`). -/
def vadd (a b : Vec3) : Vec3 :=
  Vec3.mk (a.x + b.x) (a.y + b.y) (a.z + b.z)

/-- Dot product (`THREE.Vector3.dot`). -/
def vdot (a b : Vec3) : ℚ :=
  a.x * b.x + a.y * b.y + a.z * b.z

/-- Vector difference (`THREE.Vector3.subVectors`). -/
def vsub (a b : Vec3) : Vec3 :=
  Vec3.mk (a.x - b.x) (a.y - b.y) (a.z - b.z)

/-- Scalar multiple (`THREE.Vector3.multiplyScalar`). -/
def vscale (s : ℚ) (a : Vec3) : Vec3 :=
  Vec3.mk (s * a.x) (s * a.y) (s * a.z)

/-- Quaternion product a * b, the formula of `THREE.Quaternion.multiplyQuaternions`. -/
def qmul (a b : Quat) : Quat :=
  Quat.mk
    (a.x * b.w + a.w * b.x + a.y * b.z - a.z * b.y)
    (a.y * b.w + a.w * b.y + a.z * b.x - a.x * b.z)
    (a.z * b.w + a.w * b.z + a.x * b.y - a.y * b.x)
    (a.w * b.w - a.x * b.x - a.y * b.y - a.z * b.z)

/-- Quaternion conjugate (`THREE.Quaternion.conjugate`). -/
def qconj (q : Quat) : Quat :=
  Quat.mk (-q.x) (-q.y) (-q.z) q.w

/-- Squared norm of a quaternion (`THREE.Quaternion.lengthSq`). -/
def normSq (q : Quat) : ℚ :=
  q.x * q.x + q.y * q.y + q.z * q.z + q.w * q.w

/-- Embedding of `THREE.Quaternion.normalize`: the length is
`Math.sqrt(lengthSq)`, abstracted as `sqrtF`; a zero length yields the
identity quaternion, otherwise every component is divided by the length. -/
def qnormalize (sqrtF : ℚ → ℚ) (q : Quat) : Quat :=
  let l := sqrtF (normSq q)
  if l = 0 then Quat.mk 0 0 0 1
  else Quat.mk (q.x / l) (q.y / l) (q.z / l) (q.w / l)

/-- Embedding of `THREE.Vector3.applyQuaternion` (the optimized
`t = 2 cross(q.xyz, v); v + q.w t + cross(q.xyz, t)` form of the THREE.js
sources, exact for unit quaternions). -/
def rotByQuat (q : Quat) (v : Vec3) : Vec3 :=
  let tx := 2 * (q.y * v.z - q.z * v.y)
  let ty := 2 * (q.z * v.x - q.x * v.z)
  let tz := 2 * (q.x * v.y - q.y * v.x)
  Vec3.mk
    (v.x + q.w * tx + (q.y * tz - q.z * ty))
    (v.y + q.w * ty + (q.z * tx - q.x * tz))
    (v.z + q.w * tz + (q.x * ty - q.y * tx))

/-- A vector as a pure quaternion. -/
def quatOfVec (v : Vec3) : Quat :=
  Quat.mk v.x v.y v.z 0

/-- The vector part of a quaternion. -/
def vecOfQuat (q : Quat) : Vec3 :=
  Vec3.mk q.x q.y q.z

/-- Textbook rotation action of a quaternion on a vector: the vector part
of `q * (v, 0) * conj q`.  This is the specification-side meaning of
"apply the transform's rotation to the position". -/
def quatRotateSpec (q : Quat) (v : Vec3) : Vec3 :=
  vecOfQuat (qmul (qmul q (quatOfVec v)) (qconj q))

/-- A pose: position and orientation (`src/utils/ros.js` / message poses). -/
structure Pose where
  position : Vec3
  orientation : Quat
deriving DecidableEq, Repr

/-- A frame transform: translation and rotation. -/
structure Transform where
  translation : Vec3
  rotation : Quat
deriving DecidableEq, Repr

/-- The identity pose, the default of `SceneNode` options. -/
def idPose : Pose :=
  Pose.mk (Vec3.mk 0 0 0) (Quat.mk 0 0 0 1)

/-- The identity quaternion. -/
def idQuat : Quat :=
  Quat.mk 0 0 0 1

/-- Embedding of `applyTransform` from `src/utils/ros.js`: copy the pose
position and orientation into fresh THREE objects, apply the transform
rotation to the position (`applyQuaternion`), add the translation,
premultiply the orientation by the transform rotation, normalize, and
return a fresh pose object.  The JS function reads only the scalar fields
of its two arguments and writes neither, so it is embedded as a pure
function. -/
def applyTransform (sqrtF : ℚ → ℚ) (pose : Pose) (transform : Transform) : Pose :=
  let currentPosition := rotByQuat transform.rotation pose.position
  let newPosition := vadd currentPosition transform.translation
  let currentOrientation := qmul transform.rotation pose.orientation
  let newOrientation := qnormalize sqrtF currentOrientation
  Pose.mk newPosition newOrientation

/-! SceneNode (`src/src/visualization/SceneNode.js`).  The state keeps the
fields the claims are about: the stored initial pose, whether the node
subscribed to a TF client (constructor got both `tfClient` and `frameID`),
the node's own THREE.Object3D position and quaternion, and its `visible`
flag. -/

/-- State of a `SceneNode`. -/
structure SceneNodeState where
  initialPose : Pose
  subscribed : Bool
  position : Vec3
  quaternion : Quat
  visible : Bool
deriving DecidableEq, Repr

/-- Embedding of the private static `#updateObjectPose`: sets the object's
position and quaternion from the pose, re-normalizes the quaternion,
updates the world matrix (no observable state here) and sets
`visible = true`. -/
def updateObjectPose (sqrtF : ℚ → ℚ) (s : SceneNodeState) (pose : Pose) : SceneNodeState :=
  { s with
    position := pose.position
    quaternion := qnormalize sqrtF pose.orientation
    visible := true }

/-- Embedding of the `SceneNode` constructor (`#setup`): stores the initial
pose (default identity), sets `visible = false`, adds the child, then calls
`updatePose(pose)` (which is `#updateObjectPose` on the node itself), and
subscribes when both `tfClient` and `frameID` are present
(`hasTfAndFrame`).  A fresh `THREE.Object3D` starts at position (0,0,0)
with the identity quaternion. -/
def sceneNodeNew (sqrtF : ℚ → ℚ) (hasTfAndFrame : Bool) (pose : Pose) : SceneNodeState :=
  let s0 : SceneNodeState :=
    { initialPose := pose
      subscribed := hasTfAndFrame
      position := Vec3.mk 0 0 0
      quaternion := Quat.mk 0 0 0 1
      visible := false }
  updateObjectPose sqrtF s0 pose

/-- Embedding of the TF update handler created by `#createTFUpdateHandler`:
on a transform message, always apply the transform to the stored
`initialPose` (never to the current pose) and update the object pose from
the result. -/
def tfUpdate (sqrtF : ℚ → ℚ) (s : SceneNodeState) (msg : Transform) : SceneNodeState :=
  updateObjectPose sqrtF s (applyTransform sqrtF s.initialPose msg)

/-- Delivering a sequence of transform messages to the node, in order. -/
def tfDeliverAll (sqrtF : ℚ → ℚ) (s : SceneNodeState) (ts : List Transform) : SceneNodeState :=
  ts.foldl (tfUpdate sqrtF) s

/-- A pure-translation transform with identity rotation. -/
def translationOf (x y z : ℚ) : Transform :=
  Transform.mk (Vec3.mk x y z) idQuat

/-! Supporting lemmas. -/

theorem tfUpdate_initialPose (sqrtF : ℚ → ℚ) (s : SceneNodeState) (t : Transform) :
    (tfUpdate sqrtF s t).initialPose = s.initialPose := rfl

theorem tfUpdate_tfUpdate (sqrtF : ℚ → ℚ) (s : SceneNodeState) (t1 t2 : Transform) :
    tfUpdate sqrtF (tfUpdate sqrtF s t1) t2 = tfUpdate sqrtF s t2 := rfl

theorem tfDeliverAll_append_single (sqrtF : ℚ → ℚ) (s : SceneNodeState)
    (ts : List Transform) (t : Transform) :
    tfDeliverAll sqrtF s (ts ++ [t]) = tfUpdate sqrtF s t := by
  induction ts generalizing s with
  | nil => rfl
  | cons t0 ts ih =>
      simp only [tfDeliverAll, List.cons_append, List.foldl_cons] at *
      rw [ih (tfUpdate sqrtF s t0), tfUpdate_tfUpdate]

theorem rotByQuat_unit_eq_spec (q : Quat) (v : Vec3) (h : normSq q = 1) :
    rotByQuat q v = quatRotateSpec q v := by
  have hx : q.x * q.x + q.y * q.y + q.z * q.z + q.w * q.w = 1 := h
  simp only [rotByQuat, quatRotateSpec, qmul, quatOfVec, qconj, vecOfQuat, Vec3.mk.injEq]
  refine ⟨?_, ?_, ?_⟩
  · linear_combination (-v.x) * hx
  · linear_combination (-v.y) * hx
  · linear_combination (-v.z) * hx

/-! Concrete instances used by the witness theorems. -/

/-- A square-root stand-in for witnesses; only its value at 1 matters there,
and it agrees with the real square root at 1. -/
def wSqrt : ℚ → ℚ := fun x => x

def wNode : SceneNodeState := sceneNodeNew wSqrt true idPose

def wT1 : Transform := translationOf 1 0 0

def wT2 : Transform := translationOf 2 0 0

def wPose : Pose := Pose.mk (Vec3.mk 1 2 3) (Quat.mk 0 0 0 1)

def wTf : Transform := Transform.mk (Vec3.mk 5 (-1) 0) (Quat.mk (3/5) 0 0 (4/5))

/-- C1: for every initial pose `p` and sequence of transforms delivered to a
subscribed SceneNode, the resulting node pose equals the composition of `p`
with the last transform only (position exactly, orientation up to the
handler's re-normalization, which is the identity whenever `sqrtF` returns
the correct square root 1 of the already-normalized orientation's squared
norm); delivering the same transform N ≥ 1 times equals delivering it
once; and delivering translation (1,0,0) then (2,0,0) with identity
rotations from the identity initial pose puts the node at (2,0,0), not
(3,0,0). -/
theorem sceneNode_rebase_last_transform_only
    (sqrtF : ℚ → ℚ) (s : SceneNodeState) (ts : List Transform) (t : Transform)
    (N : ℕ) (hN : 1 ≤ N) :
    tfDeliverAll sqrtF s (ts ++ [t]) = tfUpdate sqrtF s t
    ∧ tfDeliverAll sqrtF s (List.replicate N t) = tfUpdate sqrtF s t
    ∧ (tfUpdate sqrtF s t).position = (applyTransform sqrtF s.initialPose t).position
    ∧ (tfUpdate sqrtF s t).quaternion
        = qnormalize sqrtF ((applyTransform sqrtF s.initialPose t).orientation)
    ∧ (sqrtF (normSq ((applyTransform sqrtF s.initialPose t).orientation)) = 1 →
        (tfUpdate sqrtF s t).quaternion = (applyTransform sqrtF s.initialPose t).orientation)
    ∧ (tfDeliverAll sqrtF (sceneNodeNew sqrtF true idPose)
        [translationOf 1 0 0, translationOf 2 0 0]).position = Vec3.mk 2 0 0 := by
  refine ⟨tfDeliverAll_append_single sqrtF s ts t, ?_, rfl, rfl, ?_, ?_⟩
  · obtain ⟨M, rfl⟩ : ∃ M, N = M + 1 := ⟨N - 1, (Nat.succ_pred_eq_of_pos hN).symm⟩
    rw [List.replicate_succ']
    exact tfDeliverAll_append_single sqrtF s (List.replicate M t) t
  · intro h1
    show qnormalize sqrtF _ = _
    rw [qnormalize, h1]
    simp
  · show (applyTransform sqrtF idPose (translationOf 2 0 0)).position = Vec3.mk 2 0 0
    simp [applyTransform, idPose, translationOf, idQuat, rotByQuat, vadd]

theorem sceneNode_rebase_last_transform_only_witness :
    1 ≤ 3
    ∧ (tfDeliverAll wSqrt wNode ([wT1] ++ [wT2]) = tfUpdate wSqrt wNode wT2
      ∧ tfDeliverAll wSqrt wNode (List.replicate 3 wT2) = tfUpdate wSqrt wNode wT2
      ∧ (tfUpdate wSqrt wNode wT2).position
          = (applyTransform wSqrt wNode.initialPose wT2).position
      ∧ (tfUpdate wSqrt wNode wT2).quaternion
          = qnormalize wSqrt ((applyTransform wSqrt wNode.initialPose wT2).orientation)
      ∧ (wSqrt (normSq ((applyTransform wSqrt wNode.initialPose wT2).orientation)) = 1 →
          (tfUpdate wSqrt wNode wT2).quaternion
            = (applyTransform wSqrt wNode.initialPose wT2).orientation)
      ∧ (tfDeliverAll wSqrt (sceneNodeNew wSqrt true idPose)
          [translationOf 1 0 0, translationOf 2 0 0]).position = Vec3.mk 2 0 0) :=
  ⟨by decide, sceneNode_rebase_last_transform_only wSqrt wNode [wT1] wT2 3 (by decide)⟩

/-- C2: `applyTransform` is embedded as a pure function of its two
arguments (the JS reads only scalar fields of `pose` and `transform`,
builds fresh THREE objects and mutates neither argument), and it computes
exactly: the new position is the transform rotation applied to the pose
position plus the transform translation, and the new orientation is the
normalization of the transform rotation left-multiplied onto the pose
orientation.  For a unit rotation quaternion (the data-model invariant),
the embedded THREE rotation formula agrees with the textbook quaternion
rotation action `q * v * conj q`. -/
theorem applyTransform_pure_formula (sqrtF : ℚ → ℚ) (p : Pose) (t : Transform)
    (hunit : normSq t.rotation = 1) :
    applyTransform sqrtF p t
      = Pose.mk (vadd (rotByQuat t.rotation p.position) t.translation)
          (qnormalize sqrtF (qmul t.rotation p.orientation))
    ∧ rotByQuat t.rotation p.position = quatRotateSpec t.rotation p.position :=
  ⟨rfl, rotByQuat_unit_eq_spec t.rotation p.position hunit⟩

theorem applyTransform_pure_formula_witness :
    normSq wTf.rotation = 1
    ∧ (applyTransform wSqrt wPose wTf
        = Pose.mk (vadd (rotByQuat wTf.rotation wPose.position) wTf.translation)
            (qnormalize wSqrt (qmul wTf.rotation wPose.orientation))
      ∧ rotByQuat wTf.rotation wPose.position
          = quatRotateSpec wTf.rotation wPose.position) :=
  ⟨by norm_num [wTf, normSq], applyTransform_pure_formula wSqrt wPose wTf (by norm_num [wTf, normSq])⟩

/-- C8 (code bug): the spec says a SceneNode built with both a tfClient and
a frame ID stays invisible until its first transform callback, and the
constructor even sets `visible = false` with a comment to that effect —
but `#setup` then immediately calls `updatePose(pose)`, whose
`#updateObjectPose` sets `visible = true`.  So straight after
construction, before any transform delivery, the node is already visible,
for every pose and whether or not it subscribed. -/
theorem sceneNode_visible_immediately_after_construction
    (sqrtF : ℚ → ℚ) (pose : Pose) (hasTf : Bool) :
    (sceneNodeNew sqrtF hasTf pose).subscribed = hasTf
    ∧ (sceneNodeNew sqrtF hasTf pose).visible = true :=
  ⟨rfl, rfl⟩

/-! Geometry helpers (`src/utils/geometry.utils.js`, staged as
`src/unnamed/part_017`): `findClosestPoint` and `intersectPlane` signal a
degenerate (parallel) configuration by returning `undefined`, embedded
here as `Option`. -/

/-- A ray: origin, direction, and the precision threshold the plane
intersection reads from the mouse ray. -/
structure Ray where
  origin : Vec3
  direction : Vec3
  precision : ℚ
deriving DecidableEq, Repr

/-- Embedding of `findClosestPoint(targetRay, mouseRay)`: the line-line
closest-point parameter, or `none` when the denominator is within the
epsilon 0.0001 of zero. -/
def findClosestPoint (targetRay mouseRay : Ray) : Option ℚ :=
  let v13 := vsub targetRay.origin mouseRay.origin
  let v43 := mouseRay.direction
  let v21 := targetRay.direction
  let d1343 := vdot v13 v43
  let d4321 := vdot v43 v21
  let d1321 := vdot v13 v21
  let d4343 := vdot v43 v43
  let d2121 := vdot v21 v21
  let denom := d2121 * d4343 - d4321 * d4321
  if |denom| ≤ 1 / 10000 then none
  else
    let numer := d1343 * d4321 - d1321 * d4343
    some (numer / denom)

/-- Embedding of `intersectPlane(mouseRay, planeOrigin, planeNormal)`: the
ray-plane intersection point, or `none` when the ray is parallel to the
plane (absolute dot product of ray direction and plane normal below the
ray's precision). -/
def intersectPlane (mouseRay : Ray) (planeOrigin planeNormal : Vec3) : Option Vec3 :=
  let vector := vsub planeOrigin mouseRay.origin
  let dot := vdot mouseRay.direction planeNormal
  if |dot| < mouseRay.precision then none
  else
    let scalar := vdot planeNormal vector / dot
    some (vadd mouseRay.origin (vscale scalar mouseRay.direction))

/-- C9: `findClosestPoint` returns the no-result sentinel exactly when the
absolute value of its denominator `d2121 * d4343 - d4321 * d4321` is at
most 0.0001, and `intersectPlane` returns the sentinel exactly when the
absolute dot product of ray direction and plane normal is below the ray's
precision; in every other case each returns a defined result (no unchecked
division by a near-zero denominator). -/
theorem geometry_degenerate_sentinels (targetRay mouseRay : Ray) (po pn : Vec3) :
    (findClosestPoint targetRay mouseRay = none
      ↔ |vdot targetRay.direction targetRay.direction
            * vdot mouseRay.direction mouseRay.direction
          - vdot mouseRay.direction targetRay.direction
            * vdot mouseRay.direction targetRay.direction| ≤ 1 / 10000)
    ∧ ((findClosestPoint targetRay mouseRay).isSome
        ↔ ¬ |vdot targetRay.direction targetRay.direction
              * vdot mouseRay.direction mouseRay.direction
            - vdot mouseRay.direction targetRay.direction
              * vdot mouseRay.direction targetRay.direction| ≤ 1 / 10000)
    ∧ (intersectPlane mouseRay po pn = none ↔ |vdot mouseRay.direction pn| < mouseRay.precision)
    ∧ ((intersectPlane mouseRay po pn).isSome
        ↔ ¬ |vdot mouseRay.direction pn| < mouseRay.precision) := by
  by_cases h1 : |vdot targetRay.direction targetRay.direction
      * vdot mouseRay.direction mouseRay.direction
    - vdot mouseRay.direction targetRay.direction
      * vdot mouseRay.direction targetRay.direction| ≤ 1 / 10000 <;>
  by_cases h2 : |vdot mouseRay.direction pn| < mouseRay.precision <;>
  simp [findClosestPoint, intersectPlane, h1, h2]

/-! InteractiveMarker drag/feedback session
(`src/src/interactivemarkers/InteractiveMarker.js`).  The state keeps the
dragging flag, the marker's own position/quaternion, the one-slot
`bufferedPoseEvent`, the drag-start snapshot, and — as instrumentation of
the effect the claim is about — the list of server poses actually copied
onto the marker by `onServerSetPose`. -/

/-- State of an `InteractiveMarker` for the drag/server-pose protocol. -/
structure IMState where
  dragging : Bool
  position : Vec3
  quaternion : Quat
  bufferedPoseEvent : Option Pose
  dragStartPosition : Vec3
  dragStartOrientation : Quat
  appliedPoses : List Pose
deriving DecidableEq, Repr

/-- Embedding of `onServerSetPose(event)`: nothing on an undefined event;
while dragging, the event is stored in the one-slot buffer (overwriting
any earlier one); otherwise the pose is copied onto the marker's position
and quaternion (recorded in `appliedPoses`). -/
def onServerSetPose (s : IMState) (event : Option Pose) : IMState :=
  match event with
  | none => s
  | some p =>
      if s.dragging then { s with bufferedPoseEvent := some p }
      else
        { s with
          position := p.position
          quaternion := p.orientation
          appliedPoses := s.appliedPoses ++ [p] }

/-- Embedding of `startDrag` on a primary-button press: records the
drag-start pose and enters the dragging state. -/
def startDrag (s : IMState) : IMState :=
  { s with
    dragging := true
    dragStartPosition := s.position
    dragStartOrientation := s.quaternion }

/-- Embedding of `stopDrag` on a primary-button release: leaves the
dragging state, replays the buffered pose event (if any) through
`onServerSetPose`, and clears the buffer. -/
def stopDrag (s : IMState) : IMState :=
  let s1 := { s with dragging := false }
  let s2 := onServerSetPose s1 s1.bufferedPoseEvent
  { s2 with bufferedPoseEvent := none }

/-- Delivering a sequence of server pose pushes. -/
def pushServerPoses (s : IMState) (ps : List Pose) : IMState :=
  ps.foldl (fun a q => onServerSetPose a (some q)) s

theorem pushServerPoses_dragging (s : IMState) (hd : s.dragging = true)
    (ps : List Pose) (p : Pose) :
    pushServerPoses s (ps ++ [p]) = { s with bufferedPoseEvent := some p } := by
  induction ps generalizing s with
  | nil => simp [pushServerPoses, onServerSetPose, hd]
  | cons q ps ih =>
      simp only [pushServerPoses, List.cons_append, List.foldl_cons] at *
      rw [show onServerSetPose s (some q) = { s with bufferedPoseEvent := some q } by
        simp [onServerSetPose, hd]]
      exact ih { s with bufferedPoseEvent := some q } hd

/-- C5: while dragging, server pose events are never applied to the
marker's position/orientation — they land in the one-slot buffer, last
value winning; `stopDrag` then applies the buffered event exactly once and
clears the buffer.  So a drag with k ≥ 1 server pushes applies exactly the
final push, and nothing mid-drag. -/
theorem interactiveMarker_drag_buffers_server_poses
    (s : IMState) (ps : List Pose) (p : Pose) :
    (pushServerPoses (startDrag s) (ps ++ [p])).appliedPoses = s.appliedPoses
    ∧ (pushServerPoses (startDrag s) (ps ++ [p])).position = (startDrag s).position
    ∧ (pushServerPoses (startDrag s) (ps ++ [p])).bufferedPoseEvent = some p
    ∧ (stopDrag (pushServerPoses (startDrag s) (ps ++ [p]))).appliedPoses
        = s.appliedPoses ++ [p]
    ∧ (stopDrag (pushServerPoses (startDrag s) (ps ++ [p]))).position = p.position
    ∧ (stopDrag (pushServerPoses (startDrag s) (ps ++ [p]))).quaternion = p.orientation
    ∧ (stopDrag (pushServerPoses (startDrag s) (ps ++ [p]))).bufferedPoseEvent = none := by
  have hdrag : (startDrag s).dragging = true := rfl
  rw [pushServerPoses_dragging (startDrag s) hdrag ps p]
  refine ⟨rfl, rfl, rfl, ?_, ?_, ?_, rfl⟩ <;>
    simp [stopDrag, onServerSetPose, startDrag]

/-! LaserScan decoder (`src/src/sensors/LaserScan.js`, `processMessage`)
writing into the `Points` buffer (`src/src/sensors/Points.js`).  The
positions buffer is a `Float32Array` of length `3 * max_pts`; a JS typed
array silently discards a write at an index beyond its length, which is
exactly the behavior of `List.set`.  The loop `for (i = 0; i < n;
i += pointRatio)` visits the indices `i < n` with `i % pointRatio = 0`
(for a positive ratio); `j` counts every attempted write and the final
draw count passed to `points.update` is `Math.floor(j / 3)`. -/

/-- A `sensor_msgs/LaserScan` message (the fields `processMessage` reads). -/
structure LaserScanMsg where
  ranges : List ℚ
  angle_min : ℚ
  angle_increment : ℚ
  range_min : ℚ
  range_max : ℚ
deriving DecidableEq, Repr

/-- Decoder loop state: the positions array, the running write index `j`,
and the trace of attempted `positions.array[j++] = v` writes. -/
structure LSState where
  arr : List ℚ
  j : ℕ
  ws : List (ℕ × ℚ)
deriving DecidableEq, Repr

/-- One `positions.array[j++] = v` statement: the store is dropped when
`j` is out of bounds (JS typed-array semantics, matched by `List.set`),
and the attempt is recorded in the trace. -/
def f32write (st : LSState) (v : ℚ) : LSState :=
  { arr := st.arr.set st.j v, j := st.j + 1, ws := st.ws ++ [(st.j, v)] }

/-- The acceptance test `range >= message.range_min && range <=
message.range_max` at sample index `i` (a missing index reads 0, never
hit on the index lists used below). -/
def lsAcceptB (msg : LaserScanMsg) (i : ℕ) : Bool :=
  decide (msg.range_min ≤ msg.ranges.getD i 0 ∧ msg.ranges.getD i 0 ≤ msg.range_max)

/-- The point written for an accepted sample `i`:
`(range*cos(angle), range*sin(angle), 0)` with
`angle = angle_min + i * angle_increment`. -/
def lsPoint (cosF sinF : ℚ → ℚ) (msg : LaserScanMsg) (i : ℕ) : ℚ × ℚ × ℚ :=
  let range := msg.ranges.getD i 0
  let angle := msg.angle_min + (i : ℚ) * msg.angle_increment
  (range * cosF angle, range * sinF angle, 0)

/-- One iteration of the decoding loop at sample index `i`. -/
def lsStep (cosF sinF : ℚ → ℚ) (msg : LaserScanMsg) (st : LSState) (i : ℕ) : LSState :=
  if lsAcceptB msg i then
    let p := lsPoint cosF sinF msg i
    f32write (f32write (f32write st p.1) p.2.1) p.2.2
  else st

/-- Indices visited by `for (i = 0; i < n; i += stride)`. -/
def stepIdx (n stride : ℕ) : List ℕ :=
  (List.range n).filter (fun i => decide (i % stride = 0))

/-- Embedding of `LaserScan.processMessage` (after the message-ratio and
setup gates): run the loop over the sample indices starting from a
zero-initialized buffer, and pass `Math.floor(j / 3)` to
`points.update`.  Returns the final loop state and that draw count. -/
def lsProcess (cosF sinF : ℚ → ℚ) (maxPts stride : ℕ) (msg : LaserScanMsg) :
    LSState × ℕ :=
  let st0 : LSState := { arr := List.replicate (3 * maxPts) 0, j := 0, ws := [] }
  let st := (stepIdx msg.ranges.length stride).foldl (lsStep cosF sinF msg) st0
  (st, st.j / 3)

/-- The accepted sample indices, in loop order. -/
def lsAcceptedIdx (msg : LaserScanMsg) (stride : ℕ) : List ℕ :=
  (stepIdx msg.ranges.length stride).filter (lsAcceptB msg)

/-- The densely packed decoded points, in loop order. -/
def lsPoints (cosF sinF : ℚ → ℚ) (msg : LaserScanMsg) (stride : ℕ) :
    List (ℚ × ℚ × ℚ) :=
  (lsAcceptedIdx msg stride).map (lsPoint cosF sinF msg)

/-- A list of point triples laid out as consecutive scalar writes starting
at index `k`. -/
def flatWrites : ℕ → List (ℚ × ℚ × ℚ) → List (ℕ × ℚ)
  | _, [] => []
  | k, p :: rest => (k, p.1) :: (k + 1, p.2.1) :: (k + 2, p.2.2) :: flatWrites (k + 3) rest

theorem f32write3_j (st : LSState) (a b c : ℚ) :
    (f32write (f32write (f32write st a) b) c).j = st.j + 3 := by
  simp [f32write]

theorem f32write3_ws (st : LSState) (a b c : ℚ) :
    (f32write (f32write (f32write st a) b) c).ws
      = st.ws ++ [(st.j, a), (st.j + 1, b), (st.j + 2, c)] := by
  simp [f32write]

theorem lsFold_j (cosF sinF : ℚ → ℚ) (msg : LaserScanMsg) (L : List ℕ) (st : LSState) :
    (L.foldl (lsStep cosF sinF msg) st).j = st.j + 3 * (L.filter (lsAcceptB msg)).length := by
  induction L generalizing st with
  | nil => simp
  | cons i L ih =>
      simp only [List.foldl_cons, List.filter_cons]
      by_cases h : lsAcceptB msg i
      · rw [ih]
        simp [lsStep, h, f32write3_j]
        ring
      · rw [ih]
        simp [lsStep, h]

theorem lsFold_ws (cosF sinF : ℚ → ℚ) (msg : LaserScanMsg) (L : List ℕ) (st : LSState) :
    (L.foldl (lsStep cosF sinF msg) st).ws
      = st.ws ++ flatWrites st.j ((L.filter (lsAcceptB msg)).map (lsPoint cosF sinF msg)) := by
  induction L generalizing st with
  | nil => simp [flatWrites]
  | cons i L ih =>
      simp only [List.foldl_cons, List.filter_cons]
      by_cases h : lsAcceptB msg i
      · simp only [h, if_true]
        rw [ih]
        simp [lsStep, h, f32write3_ws, f32write3_j, f32write, flatWrites, List.map_cons]
      · simp only [h, Bool.false_eq_true, if_false]
        rw [ih]
        simp [lsStep, h]

/-- The LaserScan example of the spec: `ranges = [range_min - 0.01, 5.0,
range_max + 0.01]` with `range_min = 1`, `range_max = 10`. -/
def exScan : LaserScanMsg :=
  { ranges := [99 / 100, 5, 1001 / 100]
    angle_min := 0
    angle_increment := 1
    range_min := 1
    range_max := 10 }

/-- A scan with two in-range samples against a capacity of one point. -/
def bugScan : LaserScanMsg :=
  { ranges := [1, 1]
    angle_min := 0
    angle_increment := 0
    range_min := 0
    range_max := 2 }

/-- C6: a range sample (at the loop's subsampled indices) is decoded iff
`range_min <= range <= range_max`; every accepted sample is written as
`(range*cos(angle), range*sin(angle), 0)` at the next three consecutive
buffer slots, so rejected samples leave no gap (dense packing) and the
draw count equals the number of accepted samples; and the 3-sample example
scan with one in-bounds range yields exactly one decoded point. -/
theorem laserScan_range_filter_dense (cosF sinF : ℚ → ℚ) (maxPts stride : ℕ)
    (msg : LaserScanMsg) :
    (lsProcess cosF sinF maxPts stride msg).2 = (lsAcceptedIdx msg stride).length
    ∧ (lsProcess cosF sinF maxPts stride msg).1.ws
        = flatWrites 0 (lsPoints cosF sinF msg stride)
    ∧ (∀ i, i ∈ lsAcceptedIdx msg stride
        ↔ i ∈ stepIdx msg.ranges.length stride
          ∧ msg.range_min ≤ msg.ranges.getD i 0 ∧ msg.ranges.getD i 0 ≤ msg.range_max)
    ∧ (lsProcess cosF sinF 10000 1 exScan).2 = 1 := by
  refine ⟨?_, ?_, ?_, ?_⟩
  · show ((stepIdx msg.ranges.length stride).foldl (lsStep cosF sinF msg) _).j / 3 = _
    rw [lsFold_j]
    simp [lsAcceptedIdx, Nat.mul_div_cancel_left]
  · show ((stepIdx msg.ranges.length stride).foldl (lsStep cosF sinF msg) _).ws = _
    rw [lsFold_ws]
    simp [lsPoints, lsAcceptedIdx]
  · intro i
    simp [lsAcceptedIdx, List.mem_filter, lsAcceptB, and_assoc]
  · show ((stepIdx exScan.ranges.length 1).foldl (lsStep cosF sinF exScan) _).j / 3 = 1
    rw [lsFold_j]
    have hidx : stepIdx exScan.ranges.length 1 = [0, 1, 2] := rfl
    rw [hidx]
    have h0 : lsAcceptB exScan 0 = false := by
      simp only [lsAcceptB, exScan, decide_eq_false_iff_not, not_and, List.getD]
      intro h
      norm_num at h
    have h1 : lsAcceptB exScan 1 = true := by
      simp only [lsAcceptB, exScan, decide_eq_true_eq, List.getD]
      norm_num
    have h2 : lsAcceptB exScan 2 = false := by
      simp only [lsAcceptB, exScan, decide_eq_false_iff_not, not_and, List.getD]
      intro h
      norm_num
    simp [List.filter_cons, h0, h1, h2]

/-- C3 (code bug): with `max_pts = 1` and `pointRatio = 1`, a scan message
with two in-range samples makes `LaserScan.processMessage` attempt
position writes at the out-of-bounds indices 3..5 (silently dropped by the
typed array) and call `points.update` with a draw count of 2, exceeding
the capacity of 1 — the loop has no capacity check, unlike the PointCloud2
decoder, so the spec's invariant `drawCount <= capacity` fails for this
decoder.  The cosine/sine arguments are irrelevant here and instantiated
with constant functions. -/
theorem laserScan_capacity_overflow :
    (lsProcess (fun _ => 1) (fun _ => 1) 1 1 bugScan).2 = 2
    ∧ 1 < (lsProcess (fun _ => 1) (fun _ => 1) 1 1 bugScan).2
    ∧ ((lsProcess (fun _ => 1) (fun _ => 1) 1 1 bugScan).1.ws.map Prod.fst)
        = [0, 1, 2, 3, 4, 5]
    ∧ (lsProcess (fun _ => 1) (fun _ => 1) 1 1 bugScan).1.arr.length = 3 := by
  have h0 : lsAcceptB bugScan 0 = true := by
    simp only [lsAcceptB, bugScan, List.getD_cons_zero, decide_eq_true_eq]
    norm_num
  have h1 : lsAcceptB bugScan 1 = true := by
    simp only [lsAcceptB, bugScan, List.getD_cons_succ, List.getD_cons_zero,
      decide_eq_true_eq]
    norm_num
  have hidx : stepIdx bugScan.ranges.length 1 = [0, 1] := rfl
  refine ⟨?_, ?_, ?_, ?_⟩
  · simp only [lsProcess, hidx, lsFold_j]
    simp [List.filter_cons, h0, h1]
  · simp only [lsProcess, hidx, lsFold_j]
    simp [List.filter_cons, h0, h1]
  · simp only [lsProcess, hidx, lsFold_ws]
    simp [List.filter_cons, h0, h1, flatWrites]
  · simp only [lsProcess, hidx]
    simp [List.foldl_cons, lsStep, h0, h1, f32write]

/-! PointCloud2 decoder (`src/src/sensors/PointCloud2.js`,
`processMessage`, binary-buffer branch).  The message data is sliced to
`min(byteLength, max_pts * point_step)` bytes and wrapped in a DataView;
`n = floor(min(width*height/pointRatio, positions.array.length/3))`;
iteration `i` reads the x/y/z float32 fields (and the optional color
field) at `base = i*pointRatio*point_step` plus the field offset, and
writes positions `3i, 3i+1, 3i+2`.  The DataView contents are abstracted
by an oracle `f32 : ℕ → ℚ` (the float decoded at a byte offset); a
DataView read of `w` bytes at offset `o` throws a RangeError unless
`o + w <= byteLength`, so `ok` records that every read of the run was in
bounds. -/

/-- The fields of a `sensor_msgs/PointCloud2` message the binary branch
reads; `dataLen` is `msg.data.byteLength`. -/
structure PC2Msg where
  height : ℕ
  width : ℕ
  point_step : ℕ
  dataLen : ℕ
deriving DecidableEq, Repr

/-- Loop state: the positions array and the traces of DataView reads
(offset, width) and of position/color writes. -/
structure PCState where
  positions : List ℚ
  reads : List (ℕ × ℕ)
  posWrites : List ℕ
  colWrites : List ℕ
deriving DecidableEq, Repr

/-- The DataView reads iteration `i` performs: the three float32 fields at
their offsets, then the optional color field (offset and byte width of
its datatype, from `Points.setup`'s `colorFunctions`). -/
def pcReadsAt (ratio ps xo yo zo : ℕ) (colorCfg : Option (ℕ × ℕ)) (i : ℕ) :
    List (ℕ × ℕ) :=
  let base := i * ratio * ps
  [(base + xo, 4), (base + yo, 4), (base + zo, 4)]
    ++ (match colorCfg with
        | none => []
        | some (co, cw) => [(base + co, cw)])

/-- The color-array writes of iteration `i` (present iff a color source is
configured). -/
def pcColWritesAt (colorCfg : Option (ℕ × ℕ)) (i : ℕ) : List ℕ :=
  match colorCfg with
  | none => []
  | some _ => [3 * i, 3 * i + 1, 3 * i + 2]

/-- Iteration `i` of the decoding loop. -/
def pc2Step (f32 : ℕ → ℚ) (ratio ps xo yo zo : ℕ) (colorCfg : Option (ℕ × ℕ))
    (st : PCState) (i : ℕ) : PCState :=
  let base := i * ratio * ps
  { positions :=
      ((st.positions.set (3 * i) (f32 (base + xo))).set (3 * i + 1)
          (f32 (base + yo))).set (3 * i + 2) (f32 (base + zo))
    reads := st.reads ++ pcReadsAt ratio ps xo yo zo colorCfg i
    posWrites := st.posWrites ++ [3 * i, 3 * i + 1, 3 * i + 2]
    colWrites := st.colWrites ++ pcColWritesAt colorCfg i }

/-- Result of processing one binary PointCloud2 message. -/
structure PCResult where
  positions : List ℚ
  n : ℕ
  slicedLen : ℕ
  reads : List (ℕ × ℕ)
  posWrites : List ℕ
  colWrites : List ℕ
  ok : Bool
deriving DecidableEq, Repr

/-- Embedding of `PointCloud2.processMessage` on the binary branch: slice
the data to the buffer size, compute the draw count `n`, run the loop,
then hand `n` to `points.update`.  `ok` is true iff no DataView read went
past the end of the sliced view (no RangeError). -/
def pc2Process (f32 : ℕ → ℚ) (maxPts ratio : ℕ) (msg : PC2Msg)
    (xo yo zo : ℕ) (colorCfg : Option (ℕ × ℕ)) : PCResult :=
  let bufSz := maxPts * msg.point_step
  let slicedLen := min msg.dataLen bufSz
  let n := min (msg.height * msg.width / ratio) (3 * maxPts / 3)
  let st0 : PCState :=
    { positions := List.replicate (3 * maxPts) 0
      reads := []
      posWrites := []
      colWrites := [] }
  let st := (List.range n).foldl (pc2Step f32 ratio msg.point_step xo yo zo colorCfg) st0
  { positions := st.positions
    n := n
    slicedLen := slicedLen
    reads := st.reads
    posWrites := st.posWrites
    colWrites := st.colWrites
    ok := st.reads.all (fun p => decide (p.1 + p.2 ≤ slicedLen)) }

theorem pcFold_reads (f32 : ℕ → ℚ) (ratio ps xo yo zo : ℕ)
    (colorCfg : Option (ℕ × ℕ)) (L : List ℕ) (st : PCState) :
    (L.foldl (pc2Step f32 ratio ps xo yo zo colorCfg) st).reads
      = st.reads ++ L.flatMap (pcReadsAt ratio ps xo yo zo colorCfg) := by
  induction L generalizing st with
  | nil => simp
  | cons i L ih =>
      simp only [List.foldl_cons, List.flatMap_cons]
      rw [ih]
      simp [pc2Step]

theorem pcFold_posWrites (f32 : ℕ → ℚ) (ratio ps xo yo zo : ℕ)
    (colorCfg : Option (ℕ × ℕ)) (L : List ℕ) (st : PCState) :
    (L.foldl (pc2Step f32 ratio ps xo yo zo colorCfg) st).posWrites
      = st.posWrites ++ L.flatMap (fun i => [3 * i, 3 * i + 1, 3 * i + 2]) := by
  induction L generalizing st with
  | nil => simp
  | cons i L ih =>
      simp only [List.foldl_cons, List.flatMap_cons]
      rw [ih]
      simp [pc2Step]

theorem pcFold_colWrites (f32 : ℕ → ℚ) (ratio ps xo yo zo : ℕ)
    (colorCfg : Option (ℕ × ℕ)) (L : List ℕ) (st : PCState) :
    (L.foldl (pc2Step f32 ratio ps xo yo zo colorCfg) st).colWrites
      = st.colWrites ++ L.flatMap (pcColWritesAt colorCfg) := by
  induction L generalizing st with
  | nil => simp
  | cons i L ih =>
      simp only [List.foldl_cons, List.flatMap_cons]
      rw [ih]
      simp [pc2Step]

theorem pcFold_positions_length (f32 : ℕ → ℚ) (ratio ps xo yo zo : ℕ)
    (colorCfg : Option (ℕ × ℕ)) (L : List ℕ) (st : PCState) :
    (L.foldl (pc2Step f32 ratio ps xo yo zo colorCfg) st).positions.length
      = st.positions.length := by
  induction L generalizing st with
  | nil => rfl
  | cons i L ih =>
      rw [List.foldl_cons, ih]
      simp [pc2Step]

theorem range_bind_triples (n : ℕ) :
    (List.range n).flatMap (fun i => [3 * i, 3 * i + 1, 3 * i + 2]) = List.range (3 * n) := by
  induction n with
  | zero => rfl
  | succ n ih =>
      rw [List.range_succ, List.flatMap_append, ih]
      have h3 : 3 * (n + 1) = 3 * n + 1 + 1 + 1 := by ring
      rw [h3, List.range_succ, List.range_succ, List.range_succ]
      simp [List.append_assoc]

theorem pcReadBound (i m ps o w : ℕ) (hi : i < m) (how : o + w ≤ ps) :
    i * 1 * ps + o + w ≤ m * ps := by
  have h1 : i * 1 * ps + o + w ≤ (i + 1) * ps := by nlinarith
  have h2 : (i + 1) * ps ≤ m * ps := Nat.mul_le_mul_right ps hi
  exact le_trans h1 h2

/-- C7: for a PointCloud2 message whose binary buffer carries
`width * height > max_pts` points (data length matching, fields laid out
inside the record, point ratio 1), processing writes exactly `max_pts`
points (`n` equals the capacity), every position (and color) write lands
inside the `3 * max_pts`-slot arrays, and every DataView read stays
within the sliced view, so no RangeError is thrown. -/
theorem pointCloud2_capacity_truncation (f32 : ℕ → ℚ) (maxPts : ℕ) (msg : PC2Msg)
    (xo yo zo : ℕ) (colorCfg : Option (ℕ × ℕ))
    (hcap : maxPts < msg.height * msg.width)
    (hdata : msg.height * msg.width * msg.point_step ≤ msg.dataLen)
    (hx : xo + 4 ≤ msg.point_step) (hy : yo + 4 ≤ msg.point_step)
    (hz : zo + 4 ≤ msg.point_step)
    (hc : ∀ co cw, colorCfg = some (co, cw) → co + cw ≤ msg.point_step) :
    (pc2Process f32 maxPts 1 msg xo yo zo colorCfg).n = maxPts
    ∧ (pc2Process f32 maxPts 1 msg xo yo zo colorCfg).ok = true
    ∧ (pc2Process f32 maxPts 1 msg xo yo zo colorCfg).posWrites
        = List.range (3 * maxPts)
    ∧ (∀ w ∈ (pc2Process f32 maxPts 1 msg xo yo zo colorCfg).posWrites, w < 3 * maxPts)
    ∧ (∀ w ∈ (pc2Process f32 maxPts 1 msg xo yo zo colorCfg).colWrites, w < 3 * maxPts)
    ∧ (pc2Process f32 maxPts 1 msg xo yo zo colorCfg).positions.length = 3 * maxPts := by
  have hn : min (msg.height * msg.width / 1) (3 * maxPts / 3) = maxPts := by
    rw [Nat.div_one, Nat.mul_div_cancel_left maxPts (by norm_num : 0 < 3)]
    exact Nat.min_eq_right (Nat.le_of_lt hcap)
  have hsliced : min msg.dataLen (maxPts * msg.point_step) = maxPts * msg.point_step := by
    refine Nat.min_eq_right (le_trans ?_ hdata)
    exact Nat.mul_le_mul_right msg.point_step (Nat.le_of_lt hcap)
  refine ⟨?_, ?_, ?_, ?_, ?_, ?_⟩
  · simp only [pc2Process, hn]
  · simp only [pc2Process, hn, hsliced, pcFold_reads, List.nil_append]
    rw [List.all_eq_true]
    intro p hp
    rw [List.mem_flatMap] at hp
    obtain ⟨i, hi, hpin⟩ := hp
    rw [List.mem_range] at hi
    simp only [pcReadsAt, List.mem_append, List.mem_cons, List.not_mem_nil] at hpin
    rcases hpin with (h | h | h | h) | h
    · subst h
      exact decide_eq_true (pcReadBound i maxPts msg.point_step xo 4 hi hx)
    · subst h
      exact decide_eq_true (pcReadBound i maxPts msg.point_step yo 4 hi hy)
    · subst h
      exact decide_eq_true (pcReadBound i maxPts msg.point_step zo 4 hi hz)
    · exact absurd h (by simp)
    · match hcc : colorCfg with
      | none => simp at h
      | some (co, cw) =>
          simp only [List.mem_singleton] at h
          subst h
          exact decide_eq_true (pcReadBound i maxPts msg.point_step co cw hi (hc co cw rfl))
  · simp only [pc2Process, hn, pcFold_posWrites, List.nil_append, range_bind_triples]
  · simp only [pc2Process, hn, pcFold_posWrites, List.nil_append, range_bind_triples]
    intro w hw
    exact List.mem_range.mp hw
  · simp only [pc2Process, hn, pcFold_colWrites, List.nil_append]
    intro w hw
    rw [List.mem_flatMap] at hw
    obtain ⟨i, hi, hwin⟩ := hw
    rw [List.mem_range] at hi
    match colorCfg with
    | none => simp [pcColWritesAt] at hwin
    | some c =>
        simp only [pcColWritesAt, List.mem_cons, List.not_mem_nil, or_false] at hwin
        rcases hwin with h | h | h <;> omega
  · simp only [pc2Process, pcFold_positions_length, List.length_replicate]

/-- A 502-point message against a 2-point capacity for the C7 witness. -/
def wCloud : PC2Msg :=
  { height := 1, width := 502, point_step := 16, dataLen := 8032 }

theorem pointCloud2_capacity_truncation_witness :
    2 < wCloud.height * wCloud.width
    ∧ wCloud.height * wCloud.width * wCloud.point_step ≤ wCloud.dataLen
    ∧ 0 + 4 ≤ wCloud.point_step ∧ 4 + 4 ≤ wCloud.point_step ∧ 8 + 4 ≤ wCloud.point_step
    ∧ ((pc2Process (fun _ => 0) 2 1 wCloud 0 4 8 (some (12, 4))).n = 2
      ∧ (pc2Process (fun _ => 0) 2 1 wCloud 0 4 8 (some (12, 4))).ok = true
      ∧ (pc2Process (fun _ => 0) 2 1 wCloud 0 4 8 (some (12, 4))).posWrites
          = List.range (3 * 2)
      ∧ (∀ w ∈ (pc2Process (fun _ => 0) 2 1 wCloud 0 4 8 (some (12, 4))).posWrites,
          w < 3 * 2)
      ∧ (∀ w ∈ (pc2Process (fun _ => 0) 2 1 wCloud 0 4 8 (some (12, 4))).colWrites,
          w < 3 * 2)
      ∧ (pc2Process (fun _ => 0) 2 1 wCloud 0 4 8 (some (12, 4))).positions.length
          = 3 * 2) :=
  ⟨by decide, by decide, by decide, by decide, by decide,
    pointCloud2_capacity_truncation (fun _ => 0) 2 wCloud 0 4 8 (some (12, 4))
      (by decide) (by decide) (by decide) (by decide) (by decide)
      (by intro co cw h; cases h; decide)⟩

/-! Marker lifecycle (`src/src/markers/Marker.js` and
`src/src/markers/MarkerClient.js`).  The marker type constants are those
of `src/src/constants/marker.constants.js`. -/

def MARKER_ARROW : ℕ := 0
def MARKER_CUBE : ℕ := 1
def MARKER_SPHERE : ℕ := 2
def MARKER_CYLINDER : ℕ := 3
def MARKER_LINE_STRIP : ℕ := 4
def MARKER_LINE_LIST : ℕ := 5
def MARKER_CUBE_LIST : ℕ := 6
def MARKER_SPHERE_LIST : ℕ := 7
def MARKER_POINTS : ℕ := 8
def MARKER_TEXT_VIEW_FACING : ℕ := 9
def MARKER_MESH_RESOURCE : ℕ := 10
def MARKER_TRIANGLE_LIST : ℕ := 11

/-- An RGBA color. -/
structure Color where
  r : ℚ
  g : ℚ
  b : ℚ
  a : ℚ
deriving DecidableEq, Repr

/-- A `visualization_msgs/Marker` message (the fields the lifecycle
reads); `mtype` embeds the message field `type`. -/
structure MarkerMsg where
  ns : String
  id : ℤ
  mtype : ℕ
  action : ℕ
  pose : Pose
  scale : Vec3
  color : Color
  points : List Vec3
  frame_id : String
deriving DecidableEq, Repr

/-- The `ns/id` identity key `MarkerClient.processMessage` builds. -/
def markerKey (msg : MarkerMsg) : String :=
  msg.ns ++ "/" ++ toString msg.id

/-- State of a `Marker` object: the stored message, the captured
`msgScale`/`msgColor`, the marker's own THREE position/quaternion (set by
`setPose`), and the point count of the child geometry built at
construction (`InstancedMesh.count` for cube/sphere lists,
`positions.count` for line strips, line lists and points — both equal the
construction message's `points.length`; `createMarkerObject` always
returns a child object, so a constructor-built marker always has
`children[0]`). -/
structure MarkerState where
  message : MarkerMsg
  msgScale : Vec3
  msgColor : Color
  position : Vec3
  quaternion : Quat
  childPointCount : ℕ
deriving DecidableEq, Repr

/-- Embedding of the `Marker` constructor plus `init`: capture scale and
color, `setPose(message.pose)` (position set, quaternion set and
normalized), and build the child geometry from `message.points`. -/
def markerNew (sqrtF : ℚ → ℚ) (msg : MarkerMsg) : MarkerState :=
  { message := msg
    msgScale := msg.scale
    msgColor := msg.color
    position := msg.pose.position
    quaternion := qnormalize sqrtF msg.pose.orientation
    childPointCount := msg.points.length }

/-- The `Marker.update` scale test: any component differing from the
stored `msgScale` by more than 1e-6. -/
def scaleChangedB (old new : Vec3) : Bool :=
  decide (|old.x - new.x| > 1 / 1000000 ∨ |old.y - new.y| > 1 / 1000000
    ∨ |old.z - new.z| > 1 / 1000000)

/-- The `Marker.update` color test (strict `!==` comparison per channel). -/
def colorChangedB (old new : Color) : Bool :=
  decide (¬ (new.r = old.r ∧ new.g = old.g ∧ new.b = old.b ∧ new.a = old.a))

/-- A primitive type whose scale change forces a rebuild in
`Marker.update` (the switch cases returning false). -/
def rebuildOnScaleB (t : ℕ) : Bool :=
  decide (t = MARKER_ARROW ∨ t = MARKER_TEXT_VIEW_FACING
    ∨ t = MARKER_MESH_RESOURCE ∨ t = MARKER_TRIANGLE_LIST)

/-- The point-count phase of `Marker.update` (the final switch): instanced
lists compare `points.length` with the instanced count; line strips, line
lists and point markers compare `points.length * 3` with
`positions.count * itemSize`; all other types pass. -/
def markerPointsPhase (m : MarkerState) (msg : MarkerMsg) : Bool × MarkerState :=
  if msg.mtype = MARKER_CUBE_LIST ∨ msg.mtype = MARKER_SPHERE_LIST then
    if msg.points.length ≠ m.childPointCount then (false, m) else (true, m)
  else if msg.mtype = MARKER_LINE_STRIP ∨ msg.mtype = MARKER_LINE_LIST
      ∨ msg.mtype = MARKER_POINTS then
    if msg.points.length * 3 ≠ m.childPointCount * 3 then (false, m) else (true, m)
  else (true, m)

/-- Embedding of `Marker.update(message)`: refuse on a primitive type
change; otherwise store the message, re-apply the pose unconditionally,
update the material when the color changed, handle a scale change (the
four rebuild types refuse; others adjust the child in place), then the
point-count phase.  Returns the success flag and the mutated marker. -/
def markerUpdate (sqrtF : ℚ → ℚ) (m : MarkerState) (msg : MarkerMsg) :
    Bool × MarkerState :=
  if msg.mtype ≠ m.message.mtype then (false, m)
  else
    let m1 : MarkerState :=
      { m with
        message := msg
        position := msg.pose.position
        quaternion := qnormalize sqrtF msg.pose.orientation }
    let m2 : MarkerState :=
      if colorChangedB m1.msgColor msg.color then { m1 with msgColor := msg.color } else m1
    if scaleChangedB m2.msgScale msg.scale then
      let m3 : MarkerState := { m2 with msgScale := msg.scale }
      if rebuildOnScaleB msg.mtype then (false, m3)
      else markerPointsPhase m3 msg
    else markerPointsPhase m2 msg

/-- Specification-side update-compatibility predicate of the claim: same
primitive type, same point count on point-count-sensitive geometry, and no
scale change on a type requiring rebuild. -/
def updCompatible (m : MarkerState) (msg : MarkerMsg) : Prop :=
  msg.mtype = m.message.mtype
  ∧ (msg.mtype = MARKER_LINE_STRIP ∨ msg.mtype = MARKER_LINE_LIST
      ∨ msg.mtype = MARKER_POINTS ∨ msg.mtype = MARKER_CUBE_LIST
      ∨ msg.mtype = MARKER_SPHERE_LIST → msg.points.length = m.childPointCount)
  ∧ (rebuildOnScaleB msg.mtype = true → scaleChangedB m.msgScale msg.scale = false)

instance (m : MarkerState) (msg : MarkerMsg) : Decidable (updCompatible m msg) := by
  unfold updCompatible
  infer_instance

/-! MarkerClient state.  `markers` is the keyed collection; entries carry
fresh numeric identities for the wrapping SceneNode and the Marker so
that "same object identity" and "disposed and recreated" are observable;
`disposedNodes` records every SceneNode whose `dispose` ran. -/

/-- One live entry of `MarkerClient.markers`. -/
structure ClientEntry where
  nodeId : ℕ
  node : SceneNodeState
  markerId : ℕ
  marker : MarkerState
deriving DecidableEq, Repr

/-- State of a `MarkerClient`. -/
structure ClientState where
  markers : List (String × ClientEntry)
  nextId : ℕ
  disposedNodes : List ℕ
deriving DecidableEq, Repr

/-- Key lookup in the keyed collection. -/
def getEntry : List (String × ClientEntry) → String → Option ClientEntry
  | [], _ => none
  | (k0, e) :: rest, k => if k0 = k then some e else getEntry rest k

/-- In-place update of the entry's marker (the success branch mutates the
existing Marker object; the SceneNode is untouched). -/
def setMarker : List (String × ClientEntry) → String → MarkerState → List (String × ClientEntry)
  | [], _, _ => []
  | (k0, e) :: rest, k, m =>
      if k0 = k then (k0, { e with marker := m }) :: rest
      else (k0, e) :: setMarker rest k m

/-- Deletion of a key (`delete this.markers[key]`). -/
def removeKey (l : List (String × ClientEntry)) (k : String) : List (String × ClientEntry) :=
  l.filter (fun p => p.1 ≠ k)

/-- A fresh Marker wrapped in a fresh SceneNode, as the creation path of
`processMessage` builds them: the message pose is both the Marker's own
pose (via the `Marker` constructor) and the SceneNode's initial pose
option. -/
def freshEntry (sqrtF : ℚ → ℚ) (nid : ℕ) (msg : MarkerMsg) : ClientEntry :=
  { markerId := nid
    marker := markerNew sqrtF msg
    nodeId := nid + 1
    node := sceneNodeNew sqrtF true msg.pose }

/-- Embedding of `MarkerClient.processMessage`: action 0 updates in place
when the key is live and `marker.update` succeeds, otherwise disposes any
old node and constructs a fresh Marker and SceneNode for the key; action 2
disposes and removes the key; action 3 disposes and removes every key;
other actions do nothing. -/
def clientProcess (sqrtF : ℚ → ℚ) (c : ClientState) (msg : MarkerMsg) : ClientState :=
  let k := markerKey msg
  if msg.action = 0 then
    match getEntry c.markers k with
    | some e =>
        let r := markerUpdate sqrtF e.marker msg
        if r.1 then { c with markers := setMarker c.markers k r.2 }
        else
          { markers := removeKey c.markers k ++ [(k, freshEntry sqrtF c.nextId msg)]
            nextId := c.nextId + 2
            disposedNodes := c.disposedNodes ++ [e.nodeId] }
    | none =>
        { markers := c.markers ++ [(k, freshEntry sqrtF c.nextId msg)]
          nextId := c.nextId + 2
          disposedNodes := c.disposedNodes }
  else if msg.action = 2 then
    match getEntry c.markers k with
    | some e =>
        { markers := removeKey c.markers k
          nextId := c.nextId
          disposedNodes := c.disposedNodes ++ [e.nodeId] }
    | none => c
  else if msg.action = 3 then
    { markers := []
      nextId := c.nextId
      disposedNodes := c.disposedNodes ++ c.markers.map (fun p => p.2.nodeId) }
  else c

theorem getEntry_setMarker (l : List (String × ClientEntry)) (k : String)
    (m : MarkerState) (e : ClientEntry) (h : getEntry l k = some e) :
    getEntry (setMarker l k m) k = some { e with marker := m } := by
  induction l with
  | nil => simp [getEntry] at h
  | cons p rest ih =>
      obtain ⟨k0, e0⟩ := p
      by_cases hk : k0 = k
      · simp only [getEntry, setMarker, hk, if_true, Option.some_inj] at h ⊢
        rw [h]
      · simp [getEntry, setMarker, hk] at h ⊢
        exact ih h

theorem getEntry_removeKey (l : List (String × ClientEntry)) (k : String) :
    getEntry (removeKey l k) k = none := by
  induction l with
  | nil => rfl
  | cons p rest ih =>
      obtain ⟨k0, e0⟩ := p
      by_cases hk : k0 = k
      · simpa [removeKey, hk] using ih
      · simpa [removeKey, List.filter_cons, hk, getEntry] using ih

theorem getEntry_append_of_none (l1 l2 : List (String × ClientEntry)) (k : String)
    (h : getEntry l1 k = none) :
    getEntry (l1 ++ l2) k = getEntry l2 k := by
  induction l1 with
  | nil => rfl
  | cons p rest ih =>
      obtain ⟨k0, e0⟩ := p
      by_cases hk : k0 = k
      · simp [getEntry, hk] at h
      · simp [getEntry, hk] at h ⊢
        exact ih h

theorem markerPointsPhase_fst (m : MarkerState) (msg : MarkerMsg) :
    ((markerPointsPhase m msg).1 = true ↔
      (msg.mtype = MARKER_LINE_STRIP ∨ msg.mtype = MARKER_LINE_LIST
        ∨ msg.mtype = MARKER_POINTS ∨ msg.mtype = MARKER_CUBE_LIST
        ∨ msg.mtype = MARKER_SPHERE_LIST → msg.points.length = m.childPointCount)) := by
  unfold markerPointsPhase
  split_ifs with h1 h2 h3 h4 <;>
    simp_all [MARKER_LINE_STRIP, MARKER_LINE_LIST, MARKER_POINTS,
      MARKER_CUBE_LIST, MARKER_SPHERE_LIST]

/-- C4 core: `Marker.update` succeeds exactly on the claim's
update-compatibility conditions. -/
theorem markerUpdate_fst_iff (sqrtF : ℚ → ℚ) (m : MarkerState) (msg : MarkerMsg) :
    ((markerUpdate sqrtF m msg).1 = true ↔ updCompatible m msg) := by
  by_cases ht : msg.mtype = m.message.mtype
  case neg =>
    simp [markerUpdate, ht, updCompatible]
  case pos =>
    by_cases hc : colorChangedB m.msgColor msg.color = true <;>
    by_cases hs : scaleChangedB m.msgScale msg.scale = true <;>
    by_cases hr : rebuildOnScaleB m.message.mtype = true <;>
      simp [markerUpdate, ht, hc, hs, hr, markerPointsPhase_fst, updCompatible] <;>
      tauto

/-- C4: on an ADD/MODIFY (action 0) message for a live key, the marker is
updated in place — the existing SceneNode entry, with its identity,
stays, only its Marker state changes, and nothing is disposed — if and
only if the new message's primitive type equals the existing one, every
point-count-sensitive geometry keeps its point count, and no scale change
hits a rebuild-requiring type; otherwise the old entry's SceneNode is
disposed and removed and a fresh Marker and SceneNode (fresh identities)
are constructed for the key. -/
theorem markerClient_update_or_rebuild (sqrtF : ℚ → ℚ) (c : ClientState)
    (msg : MarkerMsg) (e : ClientEntry)
    (haction : msg.action = 0)
    (hlive : getEntry c.markers (markerKey msg) = some e) :
    ((markerUpdate sqrtF e.marker msg).1 = true ↔ updCompatible e.marker msg)
    ∧ (updCompatible e.marker msg →
        getEntry (clientProcess sqrtF c msg).markers (markerKey msg)
          = some { e with marker := (markerUpdate sqrtF e.marker msg).2 }
        ∧ (clientProcess sqrtF c msg).disposedNodes = c.disposedNodes)
    ∧ (¬ updCompatible e.marker msg →
        getEntry (clientProcess sqrtF c msg).markers (markerKey msg)
          = some (freshEntry sqrtF c.nextId msg)
        ∧ (clientProcess sqrtF c msg).disposedNodes = c.disposedNodes ++ [e.nodeId]) := by
  have hiff := markerUpdate_fst_iff sqrtF e.marker msg
  refine ⟨hiff, ?_, ?_⟩
  · intro hcpt
    have hok : (markerUpdate sqrtF e.marker msg).1 = true := hiff.mpr hcpt
    simp only [clientProcess, haction, if_true, hlive, hok, ite_true, if_pos rfl]
    exact ⟨getEntry_setMarker c.markers (markerKey msg)
      (markerUpdate sqrtF e.marker msg).2 e hlive, trivial⟩
  · intro hncpt
    have hok : (markerUpdate sqrtF e.marker msg).1 = false := by
      rcases h : (markerUpdate sqrtF e.marker msg).1 with _ | _
      · rfl
      · exact absurd (hiff.mp h) hncpt
    simp only [clientProcess, haction, if_true, hlive, hok, Bool.false_eq_true,
      ite_false, if_pos rfl]
    refine ⟨?_, trivial⟩
    rw [getEntry_append_of_none _ _ _ (getEntry_removeKey c.markers (markerKey msg))]
    simp [getEntry]

/-- World transform of a child under a parent in a THREE scene graph with
unit scales: position is the parent position plus the parent rotation
applied to the child position; orientation is the quaternion product. -/
def composePose (pp : Vec3) (pq : Quat) (cp : Vec3) (cq : Quat) : Vec3 × Quat :=
  (vadd pp (rotByQuat pq cp), qmul pq cq)

/-- Effective world transform of the Marker geometry inside its wrapping
SceneNode (the frame transform itself being identity). -/
def childWorld (e : ClientEntry) : Vec3 × Quat :=
  composePose e.node.position e.node.quaternion e.marker.position e.marker.quaternion

/-- The identity frame transform. -/
def idTransform : Transform :=
  Transform.mk (Vec3.mk 0 0 0) idQuat

/-- A cube marker message at position (1,0,0), identity orientation. -/
def mC10 : MarkerMsg :=
  { ns := "a"
    id := 0
    mtype := 1
    action := 0
    pose := Pose.mk (Vec3.mk 1 0 0) (Quat.mk 0 0 0 1)
    scale := Vec3.mk 1 1 1
    color := Color.mk 1 1 1 1
    points := []
    frame_id := "map" }

/-- C10: creating a marker for an absent key stores the message pose both
as the wrapping SceneNode's initial pose (whose own position/orientation
are set from it at construction, and re-set on an identity frame
transform) and as the child Marker's own pose; so under an identity frame
transform the geometry's effective world transform is the message pose
composed with itself.  Concretely, pose position (1,0,0) with identity
orientation puts the geometry at world (2,0,0), not (1,0,0). -/
theorem markerClient_pose_double_application (sqrtF : ℚ → ℚ) (c : ClientState)
    (msg : MarkerMsg)
    (haction : msg.action = 0)
    (habsent : getEntry c.markers (markerKey msg) = none) :
    getEntry (clientProcess sqrtF c msg).markers (markerKey msg)
        = some (freshEntry sqrtF c.nextId msg)
    ∧ (freshEntry sqrtF c.nextId msg).node.initialPose = msg.pose
    ∧ (freshEntry sqrtF c.nextId msg).node.position = msg.pose.position
    ∧ (freshEntry sqrtF c.nextId msg).node.quaternion = qnormalize sqrtF msg.pose.orientation
    ∧ (freshEntry sqrtF c.nextId msg).marker.position = msg.pose.position
    ∧ (freshEntry sqrtF c.nextId msg).marker.quaternion = qnormalize sqrtF msg.pose.orientation
    ∧ (tfUpdate sqrtF (freshEntry sqrtF c.nextId msg).node idTransform).position
        = msg.pose.position
    ∧ childWorld (freshEntry sqrtF c.nextId msg)
        = composePose msg.pose.position (qnormalize sqrtF msg.pose.orientation)
            msg.pose.position (qnormalize sqrtF msg.pose.orientation)
    ∧ (childWorld (freshEntry wSqrt 0 mC10)).1 = Vec3.mk 2 0 0
    ∧ mC10.pose.position = Vec3.mk 1 0 0
    ∧ Vec3.mk 2 0 0 ≠ Vec3.mk 1 0 0 := by
  refine ⟨?_, rfl, rfl, rfl, rfl, rfl, ?_, rfl, ?_, rfl, by simp⟩
  · simp only [clientProcess, haction, if_true, habsent, if_pos rfl]
    rw [getEntry_append_of_none _ _ _ habsent]
    simp [getEntry]
  · show (applyTransform sqrtF msg.pose idTransform).position = msg.pose.position
    simp [applyTransform, idTransform, idQuat, rotByQuat, vadd]
  · show (composePose (Vec3.mk 1 0 0) (qnormalize wSqrt (Quat.mk 0 0 0 1))
      (Vec3.mk 1 0 0) (qnormalize wSqrt (Quat.mk 0 0 0 1))).1 = Vec3.mk 2 0 0
    norm_num [composePose, qnormalize, normSq, wSqrt, rotByQuat, vadd, Vec3.mk.injEq]

/-- A live line-strip marker message with two points. -/
def mW0 : MarkerMsg :=
  { ns := "a"
    id := 0
    mtype := 4
    action := 0
    pose := Pose.mk (Vec3.mk 0 0 0) (Quat.mk 0 0 0 1)
    scale := Vec3.mk 1 1 1
    color := Color.mk 1 0 0 1
    points := [Vec3.mk 0 0 0, Vec3.mk 1 0 0]
    frame_id := "map" }

def eW : ClientEntry := freshEntry wSqrt 0 mW0

def cW : ClientState :=
  { markers := [(markerKey mW0, eW)], nextId := 2, disposedNodes := [] }

def emptyClient : ClientState :=
  { markers := [], nextId := 0, disposedNodes := [] }

theorem markerClient_update_or_rebuild_witness :
    mW0.action = 0
    ∧ getEntry cW.markers (markerKey mW0) = some eW
    ∧ (((markerUpdate wSqrt eW.marker mW0).1 = true ↔ updCompatible eW.marker mW0)
      ∧ (updCompatible eW.marker mW0 →
          getEntry (clientProcess wSqrt cW mW0).markers (markerKey mW0)
            = some { eW with marker := (markerUpdate wSqrt eW.marker mW0).2 }
          ∧ (clientProcess wSqrt cW mW0).disposedNodes = cW.disposedNodes)
      ∧ (¬ updCompatible eW.marker mW0 →
          getEntry (clientProcess wSqrt cW mW0).markers (markerKey mW0)
            = some (freshEntry wSqrt cW.nextId mW0)
          ∧ (clientProcess wSqrt cW mW0).disposedNodes
              = cW.disposedNodes ++ [eW.nodeId])) :=
  ⟨rfl, by simp [cW, getEntry],
    markerClient_update_or_rebuild wSqrt cW mW0 eW rfl (by simp [cW, getEntry])⟩

theorem markerClient_pose_double_application_witness :
    mC10.action = 0
    ∧ getEntry emptyClient.markers (markerKey mC10) = none
    ∧ (getEntry (clientProcess wSqrt emptyClient mC10).markers (markerKey mC10)
          = some (freshEntry wSqrt emptyClient.nextId mC10)
      ∧ (freshEntry wSqrt emptyClient.nextId mC10).node.initialPose = mC10.pose
      ∧ (freshEntry wSqrt emptyClient.nextId mC10).node.position = mC10.pose.position
      ∧ (freshEntry wSqrt emptyClient.nextId mC10).node.quaternion
          = qnormalize wSqrt mC10.pose.orientation
      ∧ (freshEntry wSqrt emptyClient.nextId mC10).marker.position = mC10.pose.position
      ∧ (freshEntry wSqrt emptyClient.nextId mC10).marker.quaternion
          = qnormalize wSqrt mC10.pose.orientation
      ∧ (tfUpdate wSqrt (freshEntry wSqrt emptyClient.nextId mC10).node idTransform).position
          = mC10.pose.position
      ∧ childWorld (freshEntry wSqrt emptyClient.nextId mC10)
          = composePose mC10.pose.position (qnormalize wSqrt mC10.pose.orientation)
              mC10.pose.position (qnormalize wSqrt mC10.pose.orientation)
      ∧ (childWorld (freshEntry wSqrt 0 mC10)).1 = Vec3.mk 2 0 0
      ∧ mC10.pose.position = Vec3.mk 1 0 0
      ∧ Vec3.mk 2 0 0 ≠ Vec3.mk 1 0 0) :=
  ⟨rfl, rfl, markerClient_pose_double_application wSqrt emptyClient mC10 rfl rfl⟩

end Ros3D
